import Mathlib

/-!
Shallow embedding of `kauldron/train/train_step.py`: the `TrainState` /
`Auxiliaries` data structures, the dict-merging helpers
(`_reduce_states_single`, `_reduce_states`), the `ModelWithAux` wrapper
(`forward`, `get_aux`, `init`) and the `TrainStep` orchestrator
(`init`, `_init`, `step`).

Python dicts are modelled as association lists `List (Key × α)` (insertion
order preserved, keys looked up left to right).  Python `None` becomes
`Option.none`; the truthiness test used by `x or y` on an optional tree is
modelled by `pyTruthy` (a `None` and an empty tree are falsy).  A raising
function becomes `Except String`.  External collaborators (the flax model,
the optax optimizer, jax autodiff, the RNG-stream policy, loss/metric/summary
objects) are abstract function fields, as the source consumes them only
through their call interface.
-/

namespace Kauldron

/-- Keys of the Python dicts (loss/metric/summary names, parameter names). -/
abbrev Key := String

/-- A parameter tree (`params`), modelled as a flat dict of numeric leaves. -/
abbrev Params := List (Key × Int)

/-- Optimizer-internal state tree (`opt_state`). -/
abbrev OptState := List (Key × Int)

/-- A data batch. -/
abbrev Batch := List (Key × Int)

/-- Model predictions (`preds`). -/
abbrev Preds := List (Key × Int)

/-- Captured intermediate activations (`interms`). -/
abbrev Interms := List (Key × Int)

/-- A bundle of named RNG streams (`rngs_lib.Rngs`). -/
abbrev Rngs := List (Key × Nat)

/-- Structural element specification of one batch element (`ElementSpec`). -/
abbrev ElemSpec := List (Key × Nat)

/-- Python truthiness of an optional tree argument: `None` is falsy and an
empty (but valid) tree is falsy; any non-empty tree is truthy. -/
def pyTruthy : Option (List (Key × Int)) → Bool
  | none => false
  | some t => !t.isEmpty

/-- The `TrainState` record: step counter, parameters, optimizer state, cumulative
training time (`flax.struct.dataclass`, immutable). -/
structure TrainState where
  step : Nat
  params : Option Params
  opt_state : Option OptState
  training_time_hours : Rat
deriving Repr, DecidableEq

/-- Transition `TrainState.next`: `step + 1`; `new_params = new_params or self.params`
and `new_opt_state = new_opt_state or self.opt_state` (Python `or`, hence
truthiness), then `dataclasses.replace` of the three fields. -/
def TrainState.next (s : TrainState) (new_params : Option Params)
    (new_opt_state : Option OptState) : TrainState :=
  let step := s.step + 1
  let new_params := if pyTruthy new_params then new_params else s.params
  let new_opt_state := if pyTruthy new_opt_state then new_opt_state else s.opt_state
  { s with step := step, params := new_params, opt_state := new_opt_state }

/-- The `Auxiliaries` record: per-name loss accumulator states, metric accumulator
states, and summary keyword bundles.  The accumulator state type `σ` and the
summary bundle type `τ` are abstract (`kd_metrics.State` is polymorphic). -/
structure Auxiliaries (σ τ : Type) where
  loss_states : List (Key × σ)
  metric_states : List (Key × σ)
  summary_kwargs : List (Key × τ)
deriving Repr, DecidableEq

/-- The keys of a dict, in insertion order. -/
def keysOf (d : List (Key × α)) : List Key := d.map Prod.fst

/-- Boolean test that two dicts have the same key set. -/
def keysMatch (d1 : List (Key × α)) (d2 : List (Key × β)) : Bool :=
  (keysOf d1).all (· ∈ keysOf d2) && (keysOf d2).all (· ∈ keysOf d1)

/-- Propositional form of `keysMatch`. -/
def KeysEq (d1 : List (Key × α)) (d2 : List (Key × β)) : Prop :=
  ∀ k, k ∈ keysOf d1 ↔ k ∈ keysOf d2

/-- Modelled from the spec: `epy.zip_dict` (external `etils` helper, not in
the repository sources) iterates the keys of the first dict pairing each with
the other dict's value, and "merging two Auxiliaries with differing
loss/metric name sets is a precondition violation and must fail" — it raises
a `KeyError` when the key sets differ. -/
def zip_dict (d1 d2 : List (Key × σ)) : Except String (List (Key × σ × σ)) :=
  if keysMatch d1 d2 then
    .ok (d1.filterMap fun kv => (d2.lookup kv.1).map fun v2 => (kv.1, kv.2, v2))
  else
    .error "KeyError"

/-- Helper `_reduce_states_single`: `final_state, *rest = states`, then fold each
remaining state into the first with its own `merge` law `m`. -/
def reduce_states_single (m : σ → σ → σ) (final_state : σ) (rest : List σ) : σ :=
  rest.foldl m final_state

/-- Helper `_reduce_states` (specialised to the two dicts `Auxiliaries.merge` passes
it): `{k: _reduce_states_single(states) for k, states in epy.zip_dict(...)}`. -/
def reduce_states (m : σ → σ → σ) (d1 d2 : List (Key × σ)) :
    Except String (List (Key × σ)) :=
  (zip_dict d1 d2).map fun l =>
    l.map fun kvw => (kvw.1, reduce_states_single m kvw.2.1 [kvw.2.2])

/-- Method `Auxiliaries.merge`: reduce `loss_states` and `metric_states` per key
(raising on key-set mismatch); `self.replace(...)` keeps every other field of
`self` — in particular `self.summary_kwargs` — unchanged. -/
def Auxiliaries.merge (m : σ → σ → σ) (self other : Auxiliaries σ τ) :
    Except String (Auxiliaries σ τ) := do
  let ls ← reduce_states m self.loss_states other.loss_states
  let ms ← reduce_states m self.metric_states other.metric_states
  pure { self with loss_states := ls, metric_states := ms }

/-- Modelled from the spec: `core.Context` (defined in `kauldron/utils/core.py`,
outside the provided sources) is the "ephemeral per-call record carrying: step,
batch, params, predictions, captured intermediate activations, per-loss
accumulator states, gradients, optimizer updates", built incrementally by
functional replacement, unset fields absent. -/
structure Context (σ : Type) where
  step : Nat
  batch : Batch
  params : Option Params
  preds : Option Preds
  interms : Option Interms
  loss_states : List (Key × σ)
  grads : Option Params
  updates : Option Params

/-- Constructor call `core.Context(step=..., batch=..., params=...)` with every other field
left at its absent/empty default. -/
def Context.mk0 (step : Nat) (batch : Batch) (params : Option Params) :
    Context σ :=
  { step := step, batch := batch, params := params, preds := none,
    interms := none, loss_states := [], grads := none, updates := none }

/-- The `ModelWithAux` wrapper: the model plus its loss/metric/summary collections.  The
model entry points, the mock-batch builder and `kd_losses.compute_losses` are
external collaborators, kept as abstract function fields; metrics and
summaries are dicts of context-readers (`get_state_from_context` /
`gather_kwargs`). -/
structure ModelWithAux (σ τ : Type) where
  model_init : Rngs → Context σ → Option String → Params
  model_apply : Option Params → Batch → Rngs → Bool → Preds × Interms
  compute_losses : Context σ → Int × List (Key × σ)
  metrics : List (Key × (Context σ → σ))
  summaries : List (Key × (Context σ → τ))
  mock_batch_from_elem_spec : ElemSpec → Batch

/-- Method `ModelWithAux.init`: build a mock batch from `elem_spec`, a zero-step
`Context`, and invoke the model's parameter initialization. -/
def ModelWithAux.init (mwa : ModelWithAux σ τ) (init_rngs : Rngs)
    (elem_spec : ElemSpec) (model_method : Option String) : Params :=
  let mock_batch := mwa.mock_batch_from_elem_spec elem_spec
  let context : Context σ := Context.mk0 0 mock_batch none
  mwa.model_init init_rngs context model_method

/-- Method `ModelWithAux.forward`: build a `Context` from step/batch/params, apply
the model capturing intermediates, bind `preds`/`interms` into the context,
compute the losses, and return the scalar total together with the context
extended with the per-loss states. -/
def ModelWithAux.forward (mwa : ModelWithAux σ τ) (params : Option Params)
    (batch : Batch) (rngs : Rngs) (step : Nat) (is_training : Bool) :
    Int × Context σ :=
  let context : Context σ := Context.mk0 step batch params
  let pi := mwa.model_apply params batch rngs is_training
  let context := { context with preds := some pi.1, interms := some pi.2 }
  let lt := mwa.compute_losses context
  (lt.1, { context with loss_states := lt.2 })

/-- Method `ModelWithAux.get_aux`: start from an empty `Auxiliaries` and let each
flag independently bind its piece from the context. -/
def ModelWithAux.get_aux (mwa : ModelWithAux σ τ) (context : Context σ)
    (return_losses return_metrics return_summaries : Bool) : Auxiliaries σ τ :=
  let aux : Auxiliaries σ τ := ⟨[], [], []⟩
  let aux := if return_losses then
    { aux with loss_states := context.loss_states } else aux
  let aux := if return_metrics then
    { aux with metric_states := mwa.metrics.map fun km => (km.1, km.2 context) }
    else aux
  let aux := if return_summaries then
    { aux with summary_kwargs := mwa.summaries.map fun ks => (ks.1, ks.2 context) }
    else aux
  aux

/-- The optax `GradientTransformation` contract: `init` and `update` (external optax
contract, consumed as-is). -/
structure Optimizer where
  init : Params → OptState
  update : Params → Option OptState → Option Params → Params × OptState

/-- The `rngs_lib.RngStreams` policy: the per-run RNG-stream policy, with a fixed
`init_rngs` bundle and a `train_rngs` bundle deterministic in the step. -/
structure RngStreams where
  init_rngs : Rngs
  train_rngs : Nat → Rngs

/-- The `TrainStep` orchestrator.  `grad` models `jax.grad(f, argnums=0)`
(the autodiff capability applied to the forward scalar; with `has_aux=True`
the auxiliary context is the one produced by the very same forward
evaluation), and `apply_updates` models `optax.apply_updates`. -/
structure TrainStep (σ τ : Type) where
  model_with_aux : ModelWithAux σ τ
  optimizer : Optimizer
  rng_streams : RngStreams
  grad : (Option Params → Int) → Option Params → Params
  apply_updates : Option Params → Params → Params

/-- Method `TrainStep.init` (equal to `TrainStep._init` since the `jit` wrapper and the
`flax.core.freeze` of `elem_spec` do not change the value): initialize params
via `ModelWithAux.init` under the "init" RNG stream, initialize the optimizer
state from them, and return a fresh `TrainState`. -/
def TrainStep.init (ts : TrainStep σ τ) (elem_spec : ElemSpec)
    (model_method : Option String) : TrainState :=
  let params := ts.model_with_aux.init ts.rng_streams.init_rngs elem_spec
    model_method
  let opt_state := ts.optimizer.init params
  { step := 0, params := some params, opt_state := some opt_state,
    training_time_hours := 0 }

/-- The gradients computed inside `TrainStep.step`: `jax.grad` of the forward
scalar with respect to `params`, at the input state's params, batch, the
step-derived train RNGs, `is_training=True`. -/
def TrainStep.stepGrads (ts : TrainStep σ τ) (state : TrainState)
    (batch : Batch) : Params :=
  ts.grad
    (fun p => (ts.model_with_aux.forward p batch
      (ts.rng_streams.train_rngs state.step) state.step true).1)
    state.params

/-- The pre-update forward `Context` of `TrainStep.step`: the auxiliary
output of the same forward pass that `jax.grad(..., has_aux=True)`
differentiates, evaluated at the input state's params. -/
def TrainStep.preUpdateContext (ts : TrainStep σ τ) (state : TrainState)
    (batch : Batch) : Context σ :=
  (ts.model_with_aux.forward state.params batch
    (ts.rng_streams.train_rngs state.step) state.step true).2

/-- The optimizer output `(updates, new_opt_state)` computed inside
`TrainStep.step`. -/
def TrainStep.stepUpdates (ts : TrainStep σ τ) (state : TrainState)
    (batch : Batch) : Params × OptState :=
  ts.optimizer.update (ts.stepGrads state batch) state.opt_state state.params

/-- The new parameters computed inside `TrainStep.step`:
`optax.apply_updates(state.params, updates)`. -/
def TrainStep.stepNewParams (ts : TrainStep σ τ) (state : TrainState)
    (batch : Batch) : Params :=
  ts.apply_updates state.params (ts.stepUpdates state batch).1

/-- Method `TrainStep.step`: gradients (with the forward context as auxiliary
output), optimizer update, `apply_updates`, `state.next`, then auxiliaries
extracted from the forward context extended with `grads`/`updates`. -/
def TrainStep.step (ts : TrainStep σ τ) (state : TrainState) (batch : Batch)
    (return_losses return_metrics return_summaries : Bool) :
    TrainState × Auxiliaries σ τ :=
  let grads := ts.stepGrads state batch
  let context := ts.preUpdateContext state batch
  let uo := ts.stepUpdates state batch
  let new_params := ts.apply_updates state.params uo.1
  let next_state := state.next (some new_params) (some uo.2)
  let context := { context with grads := some grads, updates := some uo.1 }
  let aux := ts.model_with_aux.get_aux context
    return_losses return_metrics return_summaries
  (next_state, aux)

/-!
Lemma layer: facts about dict key sets, lookups, and the per-key merge that
`_reduce_states` performs, used to settle the `Auxiliaries.merge` claims.
-/

/-- The explicit per-key merged dict that `_reduce_states` computes on
matching key sets: iterate the first dict, merging each value with the other
dict's value at the same key. -/
def mergeDicts (m : σ → σ → σ) (d1 d2 : List (Key × σ)) : List (Key × σ) :=
  d1.filterMap fun kv => (d2.lookup kv.1).map fun w => (kv.1, m kv.2 w)

/-- A key that appears in a dict's key list has a successful lookup. -/
theorem lookup_isSome_of_mem_keys {α : Type} {d : List (Key × α)} {k : Key}
    (h : k ∈ keysOf d) : (d.lookup k).isSome = true := by
  induction d with
  | nil => simp [keysOf] at h
  | cons hd tl ih =>
    obtain ⟨k', v⟩ := hd
    simp only [keysOf, List.map_cons, List.mem_cons] at h
    by_cases hk : k = k'
    · simp [List.lookup, hk]
    · have hmem : k ∈ keysOf tl := by
        rcases h with h | h
        · exact absurd h hk
        · simpa [keysOf] using h
      have hbeq : (k == k') = false := by simpa using hk
      simp [List.lookup, hbeq, ih hmem]

/-- The boolean key-set test decides the propositional one. -/
theorem keysMatch_iff {α β : Type} {d1 : List (Key × α)} {d2 : List (Key × β)} :
    keysMatch d1 d2 = true ↔ KeysEq d1 d2 := by
  simp only [keysMatch, Bool.and_eq_true, List.all_eq_true, decide_eq_true_eq,
    KeysEq]
  constructor
  · rintro ⟨h1, h2⟩ k
    exact ⟨fun hk => h1 k hk, fun hk => h2 k hk⟩
  · intro h
    exact ⟨fun k hk => (h k).1 hk, fun k hk => (h k).2 hk⟩

/-- On matching key sets, `_reduce_states` succeeds and returns the explicit
per-key merge. -/
theorem reduce_states_ok {σ : Type} (m : σ → σ → σ) {d1 d2 : List (Key × σ)}
    (h : KeysEq d1 d2) :
    reduce_states m d1 d2 = .ok (mergeDicts m d1 d2) := by
  rw [reduce_states, zip_dict, if_pos (keysMatch_iff.mpr h)]
  simp only [Except.map, mergeDicts, List.map_filterMap, Option.map_map]
  rfl

/-- When every key of the first dict is found in the second, the merged dict
keeps exactly the first dict's keys (in order). -/
theorem keysOf_mergeDicts {σ : Type} (m : σ → σ → σ) {d1 d2 : List (Key × σ)}
    (h : ∀ k ∈ keysOf d1, (d2.lookup k).isSome = true) :
    keysOf (mergeDicts m d1 d2) = keysOf d1 := by
  induction d1 with
  | nil => rfl
  | cons hd tl ih =>
    obtain ⟨k', v⟩ := hd
    obtain ⟨w, hw⟩ := Option.isSome_iff_exists.mp (h k' (by simp [keysOf]))
    have htl : ∀ k ∈ keysOf tl, (d2.lookup k).isSome = true := by
      intro k hk
      apply h
      simp only [keysOf, List.map_cons, List.mem_cons]
      exact Or.inr (by simpa [keysOf] using hk)
    have hcons : mergeDicts m ((k', v) :: tl) d2
        = (k', m v w) :: mergeDicts m tl d2 := by
      simp [mergeDicts, List.filterMap_cons, hw]
    rw [hcons]
    simp only [keysOf, List.map_cons]
    have hih := ih htl
    simp only [keysOf] at hih
    rw [hih]

/-- Lookup in a merged dict is the merge of the lookups, provided every key
of the first dict is found in the second. -/
theorem lookup_mergeDicts {σ : Type} (m : σ → σ → σ) {d2 d3 : List (Key × σ)}
    (h : ∀ k ∈ keysOf d2, (d3.lookup k).isSome = true) (k : Key) :
    (mergeDicts m d2 d3).lookup k
      = (d2.lookup k).bind fun w => (d3.lookup k).map fun u => m w u := by
  induction d2 with
  | nil => rfl
  | cons hd tl ih =>
    obtain ⟨k', w'⟩ := hd
    obtain ⟨u, hu⟩ := Option.isSome_iff_exists.mp (h k' (by simp [keysOf]))
    have htl : ∀ a ∈ keysOf tl, (d3.lookup a).isSome = true := by
      intro a ha
      apply h
      simp only [keysOf, List.map_cons, List.mem_cons]
      exact Or.inr (by simpa [keysOf] using ha)
    have hcons : mergeDicts m ((k', w') :: tl) d3
        = (k', m w' u) :: mergeDicts m tl d3 := by
      simp [mergeDicts, List.filterMap_cons, hu]
    rw [hcons]
    by_cases hk : k = k'
    · subst hk
      simp [List.lookup, hu]
    · have hbeq : (k == k') = false := by simpa using hk
      simp [List.lookup, hbeq, ih htl]

/-- Associativity of the per-key dict merge, given an associative value merge
and that the middle dict's keys are all found in the third dict. -/
theorem mergeDicts_assoc {σ : Type} (m : σ → σ → σ)
    (hm : ∀ x y z : σ, m (m x y) z = m x (m y z))
    (d1 d2 d3 : List (Key × σ))
    (h23 : ∀ k ∈ keysOf d2, (d3.lookup k).isSome = true) :
    mergeDicts m (mergeDicts m d1 d2) d3
      = mergeDicts m d1 (mergeDicts m d2 d3) := by
  have hfun : ∀ kv : Key × σ,
      ((d2.lookup kv.1).map (fun w => (kv.1, m kv.2 w))).bind
          (fun kv2 => (d3.lookup kv2.1).map fun u => (kv2.1, m kv2.2 u))
        = ((mergeDicts m d2 d3).lookup kv.1).map fun x => (kv.1, m kv.2 x) := by
    intro kv
    rw [lookup_mergeDicts m h23]
    cases h2 : d2.lookup kv.1 with
    | none => rfl
    | some w =>
      cases h3 : d3.lookup kv.1 with
      | none => simp [h3]
      | some u => simp [h3, hm]
  calc mergeDicts m (mergeDicts m d1 d2) d3
      = d1.filterMap (fun kv =>
          ((d2.lookup kv.1).map (fun w => (kv.1, m kv.2 w))).bind
            (fun kv2 => (d3.lookup kv2.1).map fun u => (kv2.1, m kv2.2 u))) := by
        simp [mergeDicts, List.filterMap_filterMap]
    _ = d1.filterMap (fun kv =>
          ((mergeDicts m d2 d3).lookup kv.1).map fun x => (kv.1, m kv.2 x)) := by
        exact congrArg (fun f => List.filterMap f d1) (funext hfun)
    _ = mergeDicts m d1 (mergeDicts m d2 d3) := rfl

/-- On matching key sets (losses and metrics), `Auxiliaries.merge` succeeds,
merging the two state dicts per key and keeping the left operand's
`summary_kwargs`. -/
theorem merge_ok {σ τ : Type} (m : σ → σ → σ) (a b : Auxiliaries σ τ)
    (hl : KeysEq a.loss_states b.loss_states)
    (hq : KeysEq a.metric_states b.metric_states) :
    a.merge m b = .ok ⟨mergeDicts m a.loss_states b.loss_states,
      mergeDicts m a.metric_states b.metric_states, a.summary_kwargs⟩ := by
  simp [Auxiliaries.merge, reduce_states_ok m hl, reduce_states_ok m hq,
    Bind.bind, Except.bind, pure, Except.pure]

/-- Whenever `Auxiliaries.merge` succeeds, the result's `summary_kwargs` is
the left operand's, unchanged. -/
theorem merge_ok_summary {σ τ : Type} (m : σ → σ → σ)
    {a b r : Auxiliaries σ τ} (h : a.merge m b = .ok r) :
    r.summary_kwargs = a.summary_kwargs := by
  rw [Auxiliaries.merge] at h
  cases hls : reduce_states m a.loss_states b.loss_states with
  | error e => rw [hls] at h; simp [Bind.bind, Except.bind] at h
  | ok ls =>
    rw [hls] at h
    cases hms : reduce_states m a.metric_states b.metric_states with
    | error e => rw [hms] at h; simp [Bind.bind, Except.bind] at h
    | ok ms =>
      rw [hms] at h
      simp only [Bind.bind, Except.bind, pure, Except.pure, Except.ok.injEq] at h
      rw [← h]

/-!
Concrete values used by the witnesses and the counterexample.
-/

/-- A concrete train state used by witnesses. -/
def sWit : TrainState :=
  { step := 5, params := some [("w", 1)], opt_state := some [("o", 2)],
    training_time_hours := 0 }

/-- Concrete auxiliaries with a non-empty summary bundle. -/
def auxA : Auxiliaries Nat Nat := ⟨[("loss", 1)], [("acc", 2)], [("img", 5)]⟩

/-- Second concrete auxiliaries with the same key sets as `auxA` but a
different summary bundle. -/
def auxB : Auxiliaries Nat Nat := ⟨[("loss", 3)], [("acc", 4)], [("img", 6)]⟩

/-- The value of `auxA.merge Nat.add auxB`. -/
def auxAB : Auxiliaries Nat Nat := ⟨[("loss", 4)], [("acc", 6)], [("img", 5)]⟩

/-- The value of `auxB.merge Nat.add auxA`. -/
def auxBA : Auxiliaries Nat Nat := ⟨[("loss", 4)], [("acc", 6)], [("img", 6)]⟩

/-- Concrete auxiliaries whose loss key set differs from `auxA`'s. -/
def auxMismatch : Auxiliaries Nat Nat := ⟨[("other", 7)], [("acc", 8)], []⟩

/-- Concrete auxiliaries for the associativity witness. -/
def auxX : Auxiliaries Nat Nat := ⟨[("l", 1)], [("m", 2)], []⟩

/-- Second concrete auxiliaries for the associativity witness. -/
def auxY : Auxiliaries Nat Nat := ⟨[("l", 3)], [("m", 4)], []⟩

/-- Third concrete auxiliaries for the associativity witness. -/
def auxZ : Auxiliaries Nat Nat := ⟨[("l", 5)], [("m", 6)], []⟩

/-!
Claim theorems.
-/

/-- C1: for every `TrainStep`, input `TrainState` `s` and batch `b`,
`TrainStep.step` returns a next state whose `step` field equals
`s.step + 1`; and the transition produces a new state value — the returned
state is exactly the pure `TrainState.next` functional replacement applied
to `s` (the input `s` is a value and is never mutated; the embedding is
purely functional, mirroring the `flax.struct.dataclass` immutability of the
source). -/
theorem trainStep_step_increments (ts : TrainStep σ τ) (s : TrainState)
    (b : Batch) (rl rm rs : Bool) :
    (ts.step s b rl rm rs).1.step = s.step + 1 ∧
    (ts.step s b rl rm rs).1
      = s.next (some (ts.stepNewParams s b)) (some (ts.stepUpdates s b).2) :=
  ⟨rfl, rfl⟩

/-- C2: the `Auxiliaries` returned by `TrainStep.step` are `get_aux` applied
to the pre-update forward `Context` — the auxiliary output of the very same
forward pass (at the input state's params) that produced the gradients —
extended with the computed `grads` and `updates`; and that context's
`params` field is the input state's params, so metrics/losses reflect the
model before this step's parameter update. -/
theorem trainStep_aux_pre_update (ts : TrainStep σ τ) (s : TrainState)
    (b : Batch) (rl rm rs : Bool) :
    (ts.step s b rl rm rs).2
      = ts.model_with_aux.get_aux
          { ts.preUpdateContext s b with
              grads := some (ts.stepGrads s b),
              updates := some (ts.stepUpdates s b).1 }
          rl rm rs
    ∧ (ts.preUpdateContext s b).params = s.params :=
  ⟨rfl, rfl⟩

/-- C3 counterexample: two concrete `Auxiliaries` with identical key sets on
all three mappings whose merge succeeds with a NON-empty `summary_kwargs`
(the left operand's bundle), refuting "the result has an empty
summary_kwargs mapping". -/
theorem merge_summary_nonempty_cex :
    keysMatch auxA.loss_states auxB.loss_states = true ∧
    keysMatch auxA.metric_states auxB.metric_states = true ∧
    keysMatch auxA.summary_kwargs auxB.summary_kwargs = true ∧
    auxA.merge Nat.add auxB = .ok auxAB ∧
    auxAB.summary_kwargs ≠ [] :=
  ⟨by decide, by decide, by decide, rfl, by decide⟩

/-- C3 (amended): for every pair of `Auxiliaries` whose merge succeeds (in
particular, with identical key sets), the result's `summary_kwargs` equals
the LEFT operand's bundle unchanged — the right operand's summaries are
dropped (not merged), but the mapping is not emptied. -/
theorem merge_summary_keeps_left (m : σ → σ → σ) (a b r : Auxiliaries σ τ)
    (h : a.merge m b = .ok r) : r.summary_kwargs = a.summary_kwargs :=
  merge_ok_summary m h

/-- Witness for C3 (amended) at `auxA`, `auxB`. -/
theorem merge_summary_keeps_left_witness :
    auxAB.summary_kwargs = auxA.summary_kwargs :=
  merge_summary_keeps_left Nat.add auxA auxB auxAB rfl

/-- C4: merging two `Auxiliaries` whose `loss_states` (or `metric_states`)
key sets are not equal fails with a `KeyError` rather than silently dropping
or ignoring keys. -/
theorem merge_keyset_mismatch_raises (m : σ → σ → σ) (a b : Auxiliaries σ τ)
    (h : ¬ KeysEq a.loss_states b.loss_states
      ∨ ¬ KeysEq a.metric_states b.metric_states) :
    a.merge m b = .error "KeyError" := by
  have hfal : ∀ {α β : Type} (d1 : List (Key × α)) (d2 : List (Key × β)),
      ¬ KeysEq d1 d2 → keysMatch d1 d2 = false := by
    intro α β d1 d2 hne
    cases hkm : keysMatch d1 d2
    · rfl
    · exact absurd (keysMatch_iff.mp hkm) hne
  rcases h with h | h
  · have hl := hfal _ _ h
    simp [Auxiliaries.merge, reduce_states, zip_dict, hl, Bind.bind,
      Except.bind, Except.map]
  · have hq := hfal _ _ h
    cases hl : keysMatch a.loss_states b.loss_states <;>
      simp [Auxiliaries.merge, reduce_states, zip_dict, hl, hq, Bind.bind,
        Except.bind, Except.map]

/-- Witness for C4: merging `auxA` with `auxMismatch` (loss key "loss" vs
"other") raises. -/
theorem merge_keyset_mismatch_raises_witness :
    Auxiliaries.merge Nat.add auxA auxMismatch = .error "KeyError" :=
  merge_keyset_mismatch_raises Nat.add auxA auxMismatch
    (Or.inl fun hk => absurd ((hk "loss").1 (by decide)) (by decide))

/-- C5: `Auxiliaries.merge` is associative on the `loss_states` and
`metric_states` components: for auxiliaries with identical key sets and an
associative per-key accumulator merge, both association orders succeed and
agree on those two mappings. -/
theorem auxiliaries_merge_assoc (m : σ → σ → σ) (a b c : Auxiliaries σ τ)
    (hm : ∀ x y z : σ, m (m x y) z = m x (m y z))
    (hl1 : KeysEq a.loss_states b.loss_states)
    (hl2 : KeysEq b.loss_states c.loss_states)
    (hq1 : KeysEq a.metric_states b.metric_states)
    (hq2 : KeysEq b.metric_states c.metric_states) :
    ∃ l r : Auxiliaries σ τ,
      (Except.bind (a.merge m b) fun ab => ab.merge m c) = .ok l ∧
      (Except.bind (b.merge m c) fun bc => a.merge m bc) = .ok r ∧
      l.loss_states = r.loss_states ∧ l.metric_states = r.metric_states := by
  have sl1 : ∀ k ∈ keysOf a.loss_states,
      (b.loss_states.lookup k).isSome = true :=
    fun k hk => lookup_isSome_of_mem_keys ((hl1 k).1 hk)
  have sq1 : ∀ k ∈ keysOf a.metric_states,
      (b.metric_states.lookup k).isSome = true :=
    fun k hk => lookup_isSome_of_mem_keys ((hq1 k).1 hk)
  have sl2 : ∀ k ∈ keysOf b.loss_states,
      (c.loss_states.lookup k).isSome = true :=
    fun k hk => lookup_isSome_of_mem_keys ((hl2 k).1 hk)
  have sq2 : ∀ k ∈ keysOf b.metric_states,
      (c.metric_states.lookup k).isSome = true :=
    fun k hk => lookup_isSome_of_mem_keys ((hq2 k).1 hk)
  have kabl : keysOf (mergeDicts m a.loss_states b.loss_states)
      = keysOf a.loss_states := keysOf_mergeDicts m sl1
  have kabq : keysOf (mergeDicts m a.metric_states b.metric_states)
      = keysOf a.metric_states := keysOf_mergeDicts m sq1
  have kbcl : keysOf (mergeDicts m b.loss_states c.loss_states)
      = keysOf b.loss_states := keysOf_mergeDicts m sl2
  have kbcq : keysOf (mergeDicts m b.metric_states c.metric_states)
      = keysOf b.metric_states := keysOf_mergeDicts m sq2
  have hab := merge_ok m a b hl1 hq1
  have hbc := merge_ok m b c hl2 hq2
  have habc := merge_ok m
    ⟨mergeDicts m a.loss_states b.loss_states,
     mergeDicts m a.metric_states b.metric_states, a.summary_kwargs⟩ c
    (fun k => by rw [show keysOf (Auxiliaries.loss_states
        ⟨mergeDicts m a.loss_states b.loss_states,
         mergeDicts m a.metric_states b.metric_states, a.summary_kwargs⟩)
        = keysOf a.loss_states from kabl]; exact (hl1 k).trans (hl2 k))
    (fun k => by rw [show keysOf (Auxiliaries.metric_states
        ⟨mergeDicts m a.loss_states b.loss_states,
         mergeDicts m a.metric_states b.metric_states, a.summary_kwargs⟩)
        = keysOf a.metric_states from kabq]; exact (hq1 k).trans (hq2 k))
  have habc2 := merge_ok m a
    ⟨mergeDicts m b.loss_states c.loss_states,
     mergeDicts m b.metric_states c.metric_states, b.summary_kwargs⟩
    (fun k => by rw [show keysOf (Auxiliaries.loss_states
        ⟨mergeDicts m b.loss_states c.loss_states,
         mergeDicts m b.metric_states c.metric_states, b.summary_kwargs⟩)
        = keysOf b.loss_states from kbcl]; exact hl1 k)
    (fun k => by rw [show keysOf (Auxiliaries.metric_states
        ⟨mergeDicts m b.loss_states c.loss_states,
         mergeDicts m b.metric_states c.metric_states, b.summary_kwargs⟩)
        = keysOf b.metric_states from kbcq]; exact hq1 k)
  refine ⟨⟨mergeDicts m (mergeDicts m a.loss_states b.loss_states)
        c.loss_states,
      mergeDicts m (mergeDicts m a.metric_states b.metric_states)
        c.metric_states,
      a.summary_kwargs⟩,
    ⟨mergeDicts m a.loss_states (mergeDicts m b.loss_states c.loss_states),
      mergeDicts m a.metric_states
        (mergeDicts m b.metric_states c.metric_states),
      a.summary_kwargs⟩, ?_, ?_, ?_, ?_⟩
  · rw [hab]
    simp only [Except.bind]
    exact habc
  · rw [hbc]
    simp only [Except.bind]
    exact habc2
  · exact mergeDicts_assoc m hm a.loss_states b.loss_states c.loss_states sl2
  · exact mergeDicts_assoc m hm a.metric_states b.metric_states
      c.metric_states sq2

/-- Witness for C5 at `auxX`, `auxY`, `auxZ` with `Nat.add` as the per-key
merge. -/
theorem auxiliaries_merge_assoc_witness :
    ∃ l r : Auxiliaries Nat Nat,
      (Except.bind (auxX.merge Nat.add auxY) fun ab => ab.merge Nat.add auxZ)
        = .ok l ∧
      (Except.bind (auxY.merge Nat.add auxZ) fun bc => auxX.merge Nat.add bc)
        = .ok r ∧
      l.loss_states = r.loss_states ∧ l.metric_states = r.metric_states :=
  auxiliaries_merge_assoc Nat.add auxX auxY auxZ
    (fun x y z => Nat.add_assoc x y z)
    (fun _ => Iff.rfl) (fun _ => Iff.rfl) (fun _ => Iff.rfl)
    (fun _ => Iff.rfl)

/-- C6: `TrainState.next` increments `step` by one; a falsy `new_params` /
`new_opt_state` argument (omitted/`None`, or an empty-but-valid tree) leaves
the previous `params` / `opt_state` in place, and only a truthy argument
replaces the old value. -/
theorem trainState_next_spec (s : TrainState) (np : Option Params)
    (nos : Option OptState) :
    (s.next np nos).step = s.step + 1 ∧
    (pyTruthy np = false → (s.next np nos).params = s.params) ∧
    (pyTruthy np = true → (s.next np nos).params = np) ∧
    (pyTruthy nos = false → (s.next np nos).opt_state = s.opt_state) ∧
    (pyTruthy nos = true → (s.next np nos).opt_state = nos) ∧
    pyTruthy (some ([] : Params)) = false ∧ pyTruthy none = false := by
  refine ⟨rfl, ?_, ?_, ?_, ?_, rfl, rfl⟩ <;> intro h <;>
    simp [TrainState.next, h]

/-- Witness for C6: advancing `sWit` with an empty-but-valid parameter tree
keeps the old params. -/
theorem trainState_next_spec_witness :
    (sWit.next (some []) none).params = sWit.params :=
  (trainState_next_spec sWit (some []) none).2.1 rfl

/-- C7: `get_aux` is a pure projection in which each flag independently
gates its component: `loss_states` is the context's stored loss states
exactly when `return_losses` is set (else empty), likewise for
`metric_states` and `summary_kwargs`; with all three flags false the result
has three empty mappings. -/
theorem get_aux_flag_gating (mwa : ModelWithAux σ τ) (c : Context σ)
    (rl rm rs : Bool) :
    (mwa.get_aux c rl rm rs).loss_states
      = (if rl then c.loss_states else []) ∧
    (mwa.get_aux c rl rm rs).metric_states
      = (if rm then mwa.metrics.map (fun km => (km.1, km.2 c)) else []) ∧
    (mwa.get_aux c rl rm rs).summary_kwargs
      = (if rs then mwa.summaries.map (fun ks => (ks.1, ks.2 c)) else []) ∧
    mwa.get_aux c false false false = ⟨[], [], []⟩ := by
  cases rl <;> cases rm <;> cases rs <;> exact ⟨rfl, rfl, rfl, rfl⟩

/-- C8: `TrainStep.init` returns a `TrainState` at step 0 with zero training
time, whose params are the `ModelWithAux` initialization under the per-run
"init" RNG stream and whose `opt_state` is the optimizer's `init` applied to
those params. -/
theorem trainStep_init_spec (ts : TrainStep σ τ) (es : ElemSpec)
    (mm : Option String) :
    (ts.init es mm).step = 0 ∧
    (ts.init es mm).training_time_hours = 0 ∧
    (ts.init es mm).params
      = some (ts.model_with_aux.init ts.rng_streams.init_rngs es mm) ∧
    (ts.init es mm).opt_state
      = some (ts.optimizer.init
          (ts.model_with_aux.init ts.rng_streams.init_rngs es mm)) :=
  ⟨rfl, rfl, rfl, rfl⟩

/-- C9: `TrainState.next` leaves `training_time_hours` unchanged — the
advance transition only touches `step`, `params` and `opt_state`. -/
theorem trainState_next_preserves_time (s : TrainState) (np : Option Params)
    (nos : Option OptState) :
    (s.next np nos).training_time_hours = s.training_time_hours := rfl

/-- C10: whenever `Auxiliaries.merge` succeeds, the result's
`summary_kwargs` is the left operand's bundle unchanged (the right
operand's is discarded), which makes merge non-commutative on that
component whenever the two bundles differ. -/
theorem merge_summary_left_bias_noncomm (m : σ → σ → σ)
    (a b r r' : Auxiliaries σ τ)
    (h : a.merge m b = .ok r) (h' : b.merge m a = .ok r') :
    r.summary_kwargs = a.summary_kwargs ∧
    r'.summary_kwargs = b.summary_kwargs ∧
    (a.summary_kwargs ≠ b.summary_kwargs →
      r.summary_kwargs ≠ r'.summary_kwargs) := by
  have h1 := merge_ok_summary m h
  have h2 := merge_ok_summary m h'
  refine ⟨h1, h2, fun hne => ?_⟩
  rw [h1, h2]
  exact hne

/-- Witness for C10 at `auxA`, `auxB` (whose summary bundles differ). -/
theorem merge_summary_left_bias_noncomm_witness :
    auxAB.summary_kwargs = auxA.summary_kwargs ∧
    auxBA.summary_kwargs = auxB.summary_kwargs ∧
    (auxA.summary_kwargs ≠ auxB.summary_kwargs →
      auxAB.summary_kwargs ≠ auxBA.summary_kwargs) :=
  merge_summary_left_bias_noncomm Nat.add auxA auxB auxAB auxBA rfl rfl

end Kauldron
